import Mathlib

/-!
Verification of the localpix biometric identification pipeline: a shallow
embedding of src/ai_engine.py, src/models.py and the relevant handlers of
src/app.py (close_day_api, process_photo_ai, identify_client), together
with theorems settling the specification claims about them.
-/

/-- Bounding box of a detected face, the facial area dict returned by the
extraction capability: x, y, w, h integer pixel values. -/
structure FacialArea where
  x : Int
  y : Int
  w : Int
  h : Int
deriving DecidableEq, Repr

/-- One raw result dict of the external DeepFace.represent call: embedding
plus facial area. -/
structure RawFace where
  embedding : List ℝ
  facial_area : FacialArea

/-- Outcome of the external DeepFace.represent call inside extract_faces:
either a list of result dicts, or a raised exception carrying a message
(unreadable input, capability unavailable, and so on). -/
inductive RepresentOutcome where
  | ok (results : List RawFace)
  | raise (msg : String)

/-- A face kept by extract_faces: embedding plus box. -/
structure Face where
  embedding : List ℝ
  box : FacialArea

namespace AIEngine

/-- Function AIEngine.extract_faces, src/ai_engine.py lines 16-40: when the
external call raises, the except branch prints the error and returns the
empty list; otherwise it keeps exactly the results whose facial area has a
strictly positive w (only the width is tested). -/
def extract_faces (outcome : RepresentOutcome) : List Face :=
  match outcome with
  | .raise _ => []
  | .ok results =>
      results.filterMap (fun res =>
        if res.facial_area.w > 0 then
          some { embedding := res.embedding, box := res.facial_area }
        else
          none)

/-- Dot product of two embedding vectors, np.dot on 1-D arrays. -/
def dot (v1 v2 : List ℝ) : ℝ :=
  (List.zipWith (fun a b => a * b) v1 v2).sum

/-- Value computed by AIEngine.get_similarity on same-length vectors:
np.dot(v1, v2) / (np.linalg.norm(v1) * np.linalg.norm(v2)), the norm being
the square root of the sum of squares. -/
noncomputable def cosineSim (v1 v2 : List ℝ) : ℝ :=
  dot v1 v2 / (Real.sqrt (dot v1 v1) * Real.sqrt (dot v2 v2))

/-- Function AIEngine.get_similarity, src/ai_engine.py lines 42-50: np.dot
raises ValueError (shapes not aligned) when the two 1-D arrays have
different lengths; otherwise the cosine similarity value is returned. -/
noncomputable def get_similarity (v1 v2 : List ℝ) : Except String ℝ :=
  if v1.length = v2.length then .ok (cosineSim v1 v2)
  else .error "shapes not aligned"

end AIEngine

/-- Photo row, src/models.py lines 26-37; only the fields the
identification pipeline reads. created_at is kept as the formatted
strftime string read at query time. -/
structure Photo where
  id : Nat
  relative_path : String
  created_at : String
deriving DecidableEq, Repr

/-- FaceDescriptor row, src/models.py lines 39-46. vector_json and
box_json hold json.dumps of the embedding and the box; both are modelled
directly, json.loads being the inverse of json.dumps. The owning photo is
reached through the photo_id foreign key (backref photo) and is embedded
here, photo_id being photo.id. -/
structure FaceDescriptor where
  id : Nat
  photo : Photo
  vector : List ℝ
  box : FacialArea

/-- The photo_id column of a descriptor row. -/
def FaceDescriptor.photo_id (d : FaceDescriptor) : Nat := d.photo.id

/-- SaleItem row, src/models.py lines 60-68; the fields close_day_api
reads. product_type and photographer are nullable columns. -/
structure SaleItem where
  product_name : String
  price : ℚ
  product_type : Option String
  photographer : Option String

/-- Sale row, src/models.py lines 48-58; the fields close_day_api reads. -/
structure Sale where
  timestamp : Nat
  final_total : ℚ
  items : List SaleItem

/-- EODReport row, src/models.py lines 89-98: the closing record. The
photographer splits dict is an insertion-ordered association list. -/
structure EODReport where
  id : Nat
  timestamp : Nat
  total_revenue : ℚ
  digital_count : Nat
  print_count : Nat
  photographer_splits : List (String × ℚ)
  closing_user : String
  notes : String

/-- Committed database state: the tables the verified handlers touch. -/
structure DBState where
  sales : List Sale
  reports : List EODReport
  descriptors : List FaceDescriptor

/-- Head test for the five characters of the word print. -/
def startsWithPrint : List Char → Bool
  | 'p' :: 'r' :: 'i' :: 'n' :: 't' :: _ => true
  | _ => false

/-- Python substring test: the word print occurs somewhere in the list. -/
def hasPrintSub : List Char → Bool
  | [] => false
  | c :: rest => startsWithPrint (c :: rest) || hasPrintSub rest

/-- The close_day_api item test: the word print occurs in the lowered
product_type, a missing product_type counting as the empty string. -/
def isPrintItem (item : SaleItem) : Bool :=
  hasPrintSub ((item.product_type.getD "").toLower.toList)

/-- The Python expression item.photographer or Manual: None and the empty
string are falsy. -/
def photographerOrManual (it : SaleItem) : String :=
  match it.photographer with
  | none => "Manual"
  | some s => if s = "" then "Manual" else s

/-- Update of the ph_splits dict: ph_splits[ph] = ph_splits.get(ph, 0) +
item.price. Python dicts preserve insertion order, modelled by an ordered
association list. -/
def bumpSplit : List (String × ℚ) → String → ℚ → List (String × ℚ)
  | [], ph, price => [(ph, price)]
  | (k, v) :: rest, ph, price =>
      if k = ph then (k, v + price) :: rest else (k, v) :: bumpSplit rest ph price

/-- Query EODReport.query.order_by(EODReport.timestamp.desc()).first():
the report with the greatest timestamp, the first inserted among ties. -/
def last_eod (reports : List EODReport) : Option EODReport :=
  reports.foldl
    (fun acc r =>
      match acc with
      | none => some r
      | some m => if m.timestamp < r.timestamp then some r else some m)
    none

/-- Step 1 of close_day_api: the sales strictly after the last closing,
all sales when no closing exists yet. -/
def salesSinceLastClosing (st : DBState) : List Sale :=
  match last_eod st.reports with
  | none => st.sales
  | some r => st.sales.filter (fun s => r.timestamp < s.timestamp)

/-- The EODReport built by close_day_api, steps 1 and 2: revenue total,
digital and print counts over all items of the selected sales, and the
photographer splits. The id is the autoincrement key the database
assigns at commit. -/
def buildReport (st : DBState) (notes user : String) (now : Nat) : EODReport :=
  let sales := salesSinceLastClosing st
  let items := sales.flatMap (fun s => s.items)
  { id := st.reports.length + 1
    timestamp := now
    total_revenue := (sales.map (fun s => s.final_total)).sum
    digital_count := items.countP (fun it => !(isPrintItem it))
    print_count := items.countP (fun it => isPrintItem it)
    photographer_splits :=
      items.foldl (fun m it => bumpSplit m (photographerOrManual it) it.price) []
    closing_user := user
    notes := notes }

/-- Response of close_day_api: jsonify ok with the new report id, or the
except branch answering status 500. -/
inductive CloseDayResponse where
  | ok (id : Nat)
  | error (msg : String)
deriving DecidableEq, Repr

/-- Handler close_day_api, src/app.py lines 520-569. The session stages
the report insert (db.session.add) and the unconditional bulk delete of
every face descriptor row (FaceDescriptor.query.delete()) inside one open
transaction, and the single db.session.commit() applies both together.
The commitOk argument models whether that transaction commits: any
exception raised before or at the commit leaves the transaction
uncommitted (the except branch answers a 500 error and the request-scoped
session is rolled back), so the committed state is unchanged. -/
def close_day_api (st : DBState) (notes user : String) (now : Nat)
    (commitOk : Bool) : DBState × CloseDayResponse :=
  let report := buildReport st notes user now
  let pending : DBState :=
    { st with reports := st.reports ++ [report], descriptors := [] }
  if commitOk then (pending, .ok report.id)
  else (st, .error "EOD Error")

/-- Background worker process_photo_ai, src/app.py lines 591-613: extract
the faces of the uploaded photo and insert one FaceDescriptor row per
face, all committed together; any exception is caught and commits
nothing. nextId is the next autoincrement descriptor key. -/
def process_photo_ai (st : DBState) (photo : Photo) (outcome : RepresentOutcome)
    (nextId : Nat) (commitOk : Bool) : DBState :=
  let faces := AIEngine.extract_faces outcome
  let rows := ((List.range faces.length).zip faces).map
    (fun p => { id := nextId + p.1, photo := photo, vector := p.2.embedding,
                box := p.2.box : FaceDescriptor })
  if commitOk then { st with descriptors := st.descriptors ++ rows } else st

/-- The match dict appended by identify_client for one descriptor. -/
structure MatchResult where
  photo_id : Nat
  similarity : ℝ
  path : String
  date : String

/-- The match dict built for descriptor d at similarity score s. -/
def mkMatch (d : FaceDescriptor) (s : ℝ) : MatchResult :=
  { photo_id := d.photo_id, similarity := s,
    path := d.photo.relative_path, date := d.photo.created_at }

/-- The linear scan of identify_client, src/app.py lines 710-721: for
every stored descriptor compute the similarity (a dimension mismatch
raises, aborting the whole request in the outer except branch) and keep a
match exactly when the score strictly exceeds 0.65. -/
noncomputable def scanMatches (probe : List ℝ) :
    List FaceDescriptor → Except String (List MatchResult)
  | [] => .ok []
  | d :: ds =>
      match AIEngine.get_similarity probe d.vector with
      | .error e => .error e
      | .ok sim =>
          match scanMatches probe ds with
          | .error e => .error e
          | .ok rest => .ok (if sim > 0.65 then mkMatch d sim :: rest else rest)

/-- Stable insertion of a match into a list already sorted by descending
similarity: the new match goes before the first strictly smaller score and
after every earlier equal one. -/
noncomputable def insertByScore (m : MatchResult) :
    List MatchResult → List MatchResult
  | [] => [m]
  | x :: xs =>
      if x.similarity ≤ m.similarity then m :: x :: xs else x :: insertByScore m xs

/-- The sort matches.sort(key=similarity, reverse=True) of identify_client:
Python list.sort is stable, so among equal scores the original (store)
order is preserved; stable insertion sort computes exactly that result. -/
noncomputable def sortByScore : List MatchResult → List MatchResult
  | [] => []
  | x :: xs => insertByScore x (sortByScore xs)

/-- Responses of identify_client: the results list (status 200), the
no-face response with empty results and the distinct message (status 200),
or the outer except branch (status 500). -/
inductive IdentifyResponse where
  | results (l : List MatchResult)
  | noFace
  | serverError (msg : String)

/-- HTTP status code of an identify_client response. -/
def statusCode : IdentifyResponse → Nat
  | .results _ => 200
  | .noFace => 200
  | .serverError _ => 500

/-- The message field of an identify_client response, present only on the
no-face outcome. -/
def responseMessage : IdentifyResponse → Option String
  | .noFace => some "No se detectó ningún rostro"
  | _ => none

/-- The results field of an identify_client response; the 500 error
response carries none. -/
def responseResults : IdentifyResponse → Option (List MatchResult)
  | .results l => some l
  | .noFace => some []
  | .serverError _ => none

/-- Core of identify_client, src/app.py lines 697-726, after face
extraction: an empty extraction yields the no-face response; otherwise
only the first detected face is used, the store is scanned linearly, and
the matches are sorted by descending similarity and truncated to the top
20. -/
noncomputable def identify_with_faces (target_faces : List Face)
    (all_descriptors : List FaceDescriptor) : IdentifyResponse :=
  match target_faces with
  | [] => .noFace
  | f :: _ =>
      match scanMatches f.embedding all_descriptors with
      | .error e => .serverError e
      | .ok ms => .results ((sortByScore ms).take 20)

/-- Handler identify_client, src/app.py lines 669-726: the probe image is
written to a temp file and run through AIEngine.extract_faces, whose
outcome is the first argument. -/
noncomputable def identify_client (outcome : RepresentOutcome)
    (all_descriptors : List FaceDescriptor) : IdentifyResponse :=
  identify_with_faces (AIEngine.extract_faces outcome) all_descriptors

/-- Specification view of the scan: the matches of exactly the descriptors
whose cosine similarity with the probe strictly exceeds the 0.65
threshold, in store order. -/
noncomputable def matchesOf (probe : List ℝ) (descs : List FaceDescriptor) :
    List MatchResult :=
  descs.filterMap (fun d =>
    if AIEngine.cosineSim probe d.vector > 0.65 then
      some (mkMatch d (AIEngine.cosineSim probe d.vector))
    else none)

/-- The scan of identify_client keeping, next to each match, the id of the
descriptor row that produced it (the match dict itself carries only the
photo reference, not the descriptor id). -/
noncomputable def scanMatchesTagged (probe : List ℝ) :
    List FaceDescriptor → Except String (List (Nat × MatchResult))
  | [] => .ok []
  | d :: ds =>
      match AIEngine.get_similarity probe d.vector with
      | .error e => .error e
      | .ok sim =>
          match scanMatchesTagged probe ds with
          | .error e => .error e
          | .ok rest =>
              .ok (if sim > 0.65 then (d.id, mkMatch d sim) :: rest else rest)

/-- Stable insertion for tagged matches, comparing only the similarity. -/
noncomputable def insertTagged (m : Nat × MatchResult) :
    List (Nat × MatchResult) → List (Nat × MatchResult)
  | [] => [m]
  | x :: xs =>
      if x.2.similarity ≤ m.2.similarity then m :: x :: xs
      else x :: insertTagged m xs

/-- Stable descending sort for tagged matches. -/
noncomputable def sortTagged : List (Nat × MatchResult) → List (Nat × MatchResult)
  | [] => []
  | x :: xs => insertTagged x (sortTagged xs)

/-- Specification view of the tagged scan: tagged matches of exactly the
descriptors whose similarity strictly exceeds the threshold, in store
order. -/
noncomputable def taggedMatchesOf (probe : List ℝ)
    (descs : List FaceDescriptor) : List (Nat × MatchResult) :=
  descs.filterMap (fun d =>
    if AIEngine.cosineSim probe d.vector > 0.65 then
      some (d.id, mkMatch d (AIEngine.cosineSim probe d.vector))
    else none)

/-- Descending order on matches: the leftmost score dominates. -/
def scoreGE (a b : MatchResult) : Prop := b.similarity ≤ a.similarity

/-- Deterministic tie order on tagged matches: equal scores are ordered by
ascending descriptor id. -/
def tieAsc (a b : Nat × MatchResult) : Prop :=
  a.2.similarity = b.2.similarity → a.1 < b.1

/-- Sample box used by the concrete witnesses. -/
def sampleBox : FacialArea := ⟨0, 0, 5, 7⟩

/-- Sample photo row used by the concrete witnesses. -/
def samplePhoto : Photo := ⟨7, "2024-06-01/Juan/a.jpg", "2024-06-01 10:00"⟩

/-- Sample probe face used by the concrete witnesses. -/
def sampleFace : Face := ⟨[1, 0], sampleBox⟩

/-- Sample descriptor aligned with the sample probe. -/
def sampleDescA : FaceDescriptor := ⟨1, samplePhoto, [1, 0], sampleBox⟩

/-- Second sample descriptor aligned with the sample probe, larger id. -/
def sampleDescB : FaceDescriptor := ⟨2, samplePhoto, [1, 0], sampleBox⟩

/-- Sample descriptor orthogonal to the sample probe. -/
def sampleDescC : FaceDescriptor := ⟨1, samplePhoto, [0, 1], sampleBox⟩

/-! Helper lemmas about the stable descending sort. -/

theorem insertByScore_perm (m : MatchResult) (l : List MatchResult) :
    (insertByScore m l).Perm (m :: l) := by
  induction l with
  | nil => simp [insertByScore]
  | cons x xs ih =>
      by_cases h : x.similarity ≤ m.similarity
      · simp [insertByScore, h]
      · simp only [insertByScore, if_neg h]
        exact (ih.cons x).trans (List.Perm.swap m x xs)

theorem sortByScore_perm (l : List MatchResult) : (sortByScore l).Perm l := by
  induction l with
  | nil => simp [sortByScore]
  | cons x xs ih =>
      exact (insertByScore_perm x (sortByScore xs)).trans (ih.cons x)

theorem mem_insertByScore {y m : MatchResult} {l : List MatchResult} :
    y ∈ insertByScore m l ↔ y = m ∨ y ∈ l := by
  rw [(insertByScore_perm m l).mem_iff]
  simp

theorem insertByScore_pairwise {m : MatchResult} {l : List MatchResult}
    (hl : l.Pairwise scoreGE) : (insertByScore m l).Pairwise scoreGE := by
  induction l with
  | nil => simp [insertByScore, scoreGE]
  | cons x xs ih =>
      rcases List.pairwise_cons.mp hl with ⟨hx, hxs⟩
      by_cases h : x.similarity ≤ m.similarity
      · simp only [insertByScore, if_pos h]
        refine List.pairwise_cons.mpr ⟨?_, hl⟩
        intro y hy
        rcases List.mem_cons.mp hy with rfl | hy2
        · exact h
        · exact le_trans (hx y hy2) h
      · simp only [insertByScore, if_neg h]
        refine List.pairwise_cons.mpr ⟨?_, ih hxs⟩
        intro y hy
        rcases mem_insertByScore.mp hy with rfl | hy2
        · exact le_of_not_le h
        · exact hx y hy2

theorem sortByScore_sorted (l : List MatchResult) :
    (sortByScore l).Pairwise scoreGE := by
  induction l with
  | nil => simp [sortByScore]
  | cons x xs ih =>
      simpa only [sortByScore] using insertByScore_pairwise ih

theorem insertTagged_perm (m : Nat × MatchResult) (l : List (Nat × MatchResult)) :
    (insertTagged m l).Perm (m :: l) := by
  induction l with
  | nil => simp [insertTagged]
  | cons x xs ih =>
      by_cases h : x.2.similarity ≤ m.2.similarity
      · simp [insertTagged, h]
      · simp only [insertTagged, if_neg h]
        exact (ih.cons x).trans (List.Perm.swap m x xs)

theorem sortTagged_perm (l : List (Nat × MatchResult)) : (sortTagged l).Perm l := by
  induction l with
  | nil => simp [sortTagged]
  | cons x xs ih =>
      exact (insertTagged_perm x (sortTagged xs)).trans (ih.cons x)

theorem mem_insertTagged {y m : Nat × MatchResult} {l : List (Nat × MatchResult)} :
    y ∈ insertTagged m l ↔ y = m ∨ y ∈ l := by
  rw [(insertTagged_perm m l).mem_iff]
  simp

theorem insertTagged_map_snd (m : Nat × MatchResult)
    (l : List (Nat × MatchResult)) :
    (insertTagged m l).map Prod.snd = insertByScore m.2 (l.map Prod.snd) := by
  induction l with
  | nil => simp [insertTagged, insertByScore]
  | cons x xs ih =>
      by_cases h : x.2.similarity ≤ m.2.similarity
      · simp [insertTagged, insertByScore, h]
      · simp [insertTagged, insertByScore, h, ih]

theorem sortTagged_map_snd (l : List (Nat × MatchResult)) :
    (sortTagged l).map Prod.snd = sortByScore (l.map Prod.snd) := by
  induction l with
  | nil => simp [sortTagged, sortByScore]
  | cons x xs ih => simp [sortTagged, sortByScore, insertTagged_map_snd, ih]

theorem insertTagged_tieAsc {m : Nat × MatchResult}
    {l : List (Nat × MatchResult)} (hl : l.Pairwise tieAsc)
    (hm : ∀ y ∈ l, tieAsc m y) : (insertTagged m l).Pairwise tieAsc := by
  induction l with
  | nil => simp [insertTagged, tieAsc]
  | cons x xs ih =>
      rcases List.pairwise_cons.mp hl with ⟨hx, hxs⟩
      by_cases h : x.2.similarity ≤ m.2.similarity
      · simp only [insertTagged, if_pos h]
        exact List.pairwise_cons.mpr ⟨fun y hy => hm y hy, hl⟩
      · simp only [insertTagged, if_neg h]
        refine List.pairwise_cons.mpr
          ⟨?_, ih hxs (fun y hy => hm y (List.mem_cons_of_mem x hy))⟩
        intro y hy
        rcases mem_insertTagged.mp hy with rfl | hy2
        · intro heq
          exact absurd heq.symm (ne_of_lt (lt_of_not_le h))
        · exact hx y hy2

theorem sortTagged_tieAsc {l : List (Nat × MatchResult)}
    (hl : l.Pairwise (fun a b => a.1 < b.1)) :
    (sortTagged l).Pairwise tieAsc := by
  induction l with
  | nil => simp [sortTagged]
  | cons x xs ih =>
      rcases List.pairwise_cons.mp hl with ⟨hx, hxs⟩
      simp only [sortTagged]
      refine insertTagged_tieAsc (ih hxs) ?_
      intro y hy
      have hyxs : y ∈ xs := (sortTagged_perm xs).mem_iff.mp hy
      intro _heq
      exact hx y hyxs

/-! Helper lemmas about the linear scan. -/

theorem scanMatches_eq_matchesOf (probe : List ℝ) (descs : List FaceDescriptor)
    (hdim : ∀ d ∈ descs, d.vector.length = probe.length) :
    scanMatches probe descs = .ok (matchesOf probe descs) := by
  induction descs with
  | nil => simp [scanMatches, matchesOf]
  | cons d ds ih =>
      have hd : probe.length = d.vector.length :=
        (hdim d (List.mem_cons_self d ds)).symm
      have hrest := ih (fun x hx => hdim x (List.mem_cons_of_mem d hx))
      by_cases h : AIEngine.cosineSim probe d.vector > 0.65
      · simp [scanMatches, AIEngine.get_similarity, if_pos hd, hrest,
          matchesOf, List.filterMap_cons, h]
      · simp [scanMatches, AIEngine.get_similarity, if_pos hd, hrest,
          matchesOf, List.filterMap_cons, h]

theorem scanMatchesTagged_eq (probe : List ℝ) (descs : List FaceDescriptor)
    (hdim : ∀ d ∈ descs, d.vector.length = probe.length) :
    scanMatchesTagged probe descs = .ok (taggedMatchesOf probe descs) := by
  induction descs with
  | nil => simp [scanMatchesTagged, taggedMatchesOf]
  | cons d ds ih =>
      have hd : probe.length = d.vector.length :=
        (hdim d (List.mem_cons_self d ds)).symm
      have hrest := ih (fun x hx => hdim x (List.mem_cons_of_mem d hx))
      by_cases h : AIEngine.cosineSim probe d.vector > 0.65
      · simp [scanMatchesTagged, AIEngine.get_similarity, if_pos hd, hrest,
          taggedMatchesOf, List.filterMap_cons, h]
      · simp [scanMatchesTagged, AIEngine.get_similarity, if_pos hd, hrest,
          taggedMatchesOf, List.filterMap_cons, h]

theorem taggedMatchesOf_map_snd (probe : List ℝ) (descs : List FaceDescriptor) :
    (taggedMatchesOf probe descs).map Prod.snd = matchesOf probe descs := by
  induction descs with
  | nil => simp [taggedMatchesOf, matchesOf]
  | cons d ds ih =>
      have ih2 := ih
      rw [taggedMatchesOf, matchesOf] at ih2
      by_cases h : AIEngine.cosineSim probe d.vector > 0.65
      · rw [taggedMatchesOf, List.filterMap_cons, if_pos h, matchesOf,
          List.filterMap_cons, if_pos h, List.map_cons, ih2]
      · rw [taggedMatchesOf, List.filterMap_cons, if_neg h, matchesOf,
          List.filterMap_cons, if_neg h, ih2]

theorem mem_matchesOf {m : MatchResult} {probe : List ℝ}
    {descs : List FaceDescriptor} (hm : m ∈ matchesOf probe descs) :
    0.65 < m.similarity ∧
      ∃ d ∈ descs, m = mkMatch d (AIEngine.cosineSim probe d.vector) := by
  induction descs with
  | nil => simp [matchesOf] at hm
  | cons d ds ih =>
      rw [matchesOf, List.filterMap_cons] at hm
      by_cases h : AIEngine.cosineSim probe d.vector > 0.65
      · rw [if_pos h] at hm
        rcases List.mem_cons.mp hm with rfl | h2
        · exact ⟨by simpa [mkMatch] using h,
            d, List.mem_cons_self d ds, rfl⟩
        · have h2m : m ∈ matchesOf probe ds := by
            simpa [matchesOf] using h2
          rcases ih h2m with ⟨hs, d2, hd2, hm2⟩
          exact ⟨hs, d2, List.mem_cons_of_mem d hd2, hm2⟩
      · rw [if_neg h] at hm
        have h2m : m ∈ matchesOf probe ds := by
          simpa [matchesOf] using hm
        rcases ih h2m with ⟨hs, d2, hd2, hm2⟩
        exact ⟨hs, d2, List.mem_cons_of_mem d hd2, hm2⟩

theorem mem_taggedMatchesOf {x : Nat × MatchResult} {probe : List ℝ}
    {descs : List FaceDescriptor} (hx : x ∈ taggedMatchesOf probe descs) :
    ∃ d ∈ descs, x.1 = d.id := by
  induction descs with
  | nil => simp [taggedMatchesOf] at hx
  | cons d ds ih =>
      rw [taggedMatchesOf, List.filterMap_cons] at hx
      by_cases h : AIEngine.cosineSim probe d.vector > 0.65
      · rw [if_pos h] at hx
        rcases List.mem_cons.mp hx with rfl | h2
        · exact ⟨d, List.mem_cons_self d ds, rfl⟩
        · have h2m : x ∈ taggedMatchesOf probe ds := by
            simpa [taggedMatchesOf] using h2
          rcases ih h2m with ⟨d2, hd2, hx2⟩
          exact ⟨d2, List.mem_cons_of_mem d hd2, hx2⟩
      · rw [if_neg h] at hx
        have h2m : x ∈ taggedMatchesOf probe ds := by
          simpa [taggedMatchesOf] using hx
        rcases ih h2m with ⟨d2, hd2, hx2⟩
        exact ⟨d2, List.mem_cons_of_mem d hd2, hx2⟩

theorem taggedMatchesOf_pairwise_id (probe : List ℝ)
    {descs : List FaceDescriptor}
    (hids : descs.Pairwise (fun a b => a.id < b.id)) :
    (taggedMatchesOf probe descs).Pairwise (fun a b => a.1 < b.1) := by
  induction descs with
  | nil => simp [taggedMatchesOf]
  | cons d ds ih =>
      rcases List.pairwise_cons.mp hids with ⟨hd, hds⟩
      rw [taggedMatchesOf, List.filterMap_cons]
      by_cases h : AIEngine.cosineSim probe d.vector > 0.65
      · rw [if_pos h]
        refine List.pairwise_cons.mpr ⟨?_, by simpa [taggedMatchesOf] using ih hds⟩
        intro y hy
        have hym : y ∈ taggedMatchesOf probe ds := by
          simpa [taggedMatchesOf] using hy
        rcases mem_taggedMatchesOf hym with ⟨d2, hd2, hyid⟩
        rw [hyid]
        exact hd d2 hd2
      · rw [if_neg h]
        simpa [taggedMatchesOf] using ih hds

theorem countP_matchesOf (probe : List ℝ) (descs : List FaceDescriptor)
    (pid : Nat) :
    (matchesOf probe descs).countP (fun m => m.photo_id == pid) =
      descs.countP (fun d =>
        d.photo.id == pid && decide (AIEngine.cosineSim probe d.vector > 0.65)) := by
  induction descs with
  | nil => simp [matchesOf]
  | cons d ds ih =>
      have ih2 := ih
      rw [matchesOf] at ih2
      by_cases h : AIEngine.cosineSim probe d.vector > 0.65
      · rw [matchesOf, List.filterMap_cons, if_pos h, List.countP_cons,
          List.countP_cons, ih2]
        congr 1
        simp [mkMatch, FaceDescriptor.photo_id, h]
      · rw [matchesOf, List.filterMap_cons, if_neg h, List.countP_cons, ih2]
        simp [h]

/-! Helper lemmas about the cosine similarity value. -/

theorem dot_eq_sum (v1 v2 : List ℝ) :
    AIEngine.dot v1 v2 =
      ∑ i ∈ Finset.range (min v1.length v2.length),
        v1.getD i 0 * v2.getD i 0 := by
  induction v1 generalizing v2 with
  | nil => simp [AIEngine.dot]
  | cons a as ih =>
      cases v2 with
      | nil => simp [AIEngine.dot]
      | cons b bs =>
          have hmin : min (a :: as).length ((b : ℝ) :: bs).length =
              min as.length bs.length + 1 := by
            simp only [List.length_cons]
            omega
          rw [hmin, Finset.sum_range_succ']
          simp only [List.getD_cons_succ, List.getD_cons_zero]
          have ht := ih bs
          simp only [AIEngine.dot, List.zipWith_cons_cons, List.sum_cons] at ht ⊢
          rw [ht]
          ring

theorem abs_dot_le {v1 v2 : List ℝ} (h : v1.length = v2.length) :
    |AIEngine.dot v1 v2| ≤
      Real.sqrt (AIEngine.dot v1 v1) * Real.sqrt (AIEngine.dot v2 v2) := by
  have h12 : AIEngine.dot v1 v2 =
      ∑ i ∈ Finset.range v1.length, v1.getD i 0 * v2.getD i 0 := by
    rw [dot_eq_sum, h, min_self, ← h]
  have h11 : AIEngine.dot v1 v1 =
      ∑ i ∈ Finset.range v1.length, v1.getD i 0 ^ 2 := by
    rw [dot_eq_sum, min_self]
    exact Finset.sum_congr rfl (fun i _ => (sq (v1.getD i 0)).symm ▸ (sq (v1.getD i 0)) ▸ rfl)
  have h22 : AIEngine.dot v2 v2 =
      ∑ i ∈ Finset.range v1.length, v2.getD i 0 ^ 2 := by
    rw [dot_eq_sum, min_self, h]
    exact Finset.sum_congr rfl (fun i _ => by ring)
  rw [h12, h11, h22, abs_le]
  constructor
  · have hneg := Real.sum_mul_le_sqrt_mul_sqrt (Finset.range v1.length)
      (fun i => -(v1.getD i 0)) (fun i => v2.getD i 0)
    simp only [neg_mul, Finset.sum_neg_distrib, neg_sq] at hneg
    linarith
  · exact Real.sum_mul_le_sqrt_mul_sqrt _ _ _

theorem cosineSim_bounds (v1 v2 : List ℝ) (h : v1.length = v2.length) :
    -1 ≤ AIEngine.cosineSim v1 v2 ∧ AIEngine.cosineSim v1 v2 ≤ 1 := by
  have habs := abs_dot_le h
  have hB : 0 ≤ Real.sqrt (AIEngine.dot v1 v1) * Real.sqrt (AIEngine.dot v2 v2) :=
    mul_nonneg (Real.sqrt_nonneg _) (Real.sqrt_nonneg _)
  rcases eq_or_lt_of_le hB with h0 | h0
  · have hd : AIEngine.dot v1 v2 = 0 := by
      rw [← h0] at habs
      exact abs_eq_zero.mp (le_antisymm habs (abs_nonneg _))
    rw [AIEngine.cosineSim, hd, zero_div]
    norm_num
  · have h1 : |AIEngine.cosineSim v1 v2| ≤ 1 := by
      rw [AIEngine.cosineSim, abs_div, abs_of_pos h0]
      exact (div_le_one h0).mpr habs
    exact abs_le.mp h1

/-! Claim theorems. -/

/-- Claim C1: close_day_api writes the closing record and deletes all face
descriptors as one atomic unit: after a successful commit the descriptor
store holds zero rows and the closing record exists; on any failure the
committed state is unchanged, with neither the closing record nor any
partial descriptor deletion applied. -/
theorem close_day_api_atomic (st : DBState) (notes user : String) (now : Nat) :
    ((close_day_api st notes user now true).1.descriptors = [] ∧
      (close_day_api st notes user now true).1.reports =
        st.reports ++ [buildReport st notes user now] ∧
      (close_day_api st notes user now true).2 =
        .ok (buildReport st notes user now).id) ∧
    ((close_day_api st notes user now false).1 = st ∧
      (close_day_api st notes user now false).2 = .error "EOD Error") := by
  simp [close_day_api]

/-- Claim C3 counterexample: with the extraction capability raising, the
identify handler answers the no-face empty-success response (empty
results, the no-face message, status 200) instead of surfacing a
temporarily-unavailable error. -/
theorem identify_extractor_failure_counterexample :
    identify_client (.raise "capability unavailable") [] =
        IdentifyResponse.noFace ∧
      statusCode (identify_client (.raise "capability unavailable") []) = 200 ∧
      responseResults (identify_client (.raise "capability unavailable") []) =
        some [] ∧
      responseMessage (identify_client (.raise "capability unavailable") []) =
        some "No se detectó ningún rostro" :=
  ⟨rfl, rfl, rfl, rfl⟩

/-- Claim C3 amended: whenever the extractor call raises, identify_client
returns the same no-face empty-success response as a probe without a
face, for every store state; no temporarily-unavailable error is ever
surfaced. -/
theorem identify_extractor_failure_empty_success (msg : String)
    (descs : List FaceDescriptor) :
    identify_client (.raise msg) descs = IdentifyResponse.noFace := rfl

/-- Claim C6: round-trip: descriptors inserted by the ingestion worker and
then purged by a successful closing contribute no match to any subsequent
identify call, even with the exact embedding that would have matched
before the purge: the purged store holds zero rows and every identify
query over it returns empty results. -/
theorem insert_then_purge_roundtrip (st : DBState) (photo : Photo)
    (outcome : RepresentOutcome) (nextId : Nat) (notes user : String)
    (now : Nat) (probe : Face) (rest : List Face) :
    (close_day_api (process_photo_ai st photo outcome nextId true)
        notes user now true).1.descriptors = [] ∧
    identify_with_faces (probe :: rest)
        (close_day_api (process_photo_ai st photo outcome nextId true)
          notes user now true).1.descriptors = .results [] := by
  constructor
  · simp [close_day_api]
  · simp [close_day_api, identify_with_faces, scanMatches, sortByScore]

/-- Claim C8: on equal-length vectors get_similarity returns the dot
product divided by the product of the norms, a value lying between -1 and
1; on vectors of differing lengths it fails with the shape-mismatch error
rather than returning a value. -/
theorem get_similarity_spec (v1 v2 : List ℝ) :
    (v1.length = v2.length →
      AIEngine.get_similarity v1 v2 = .ok
        (AIEngine.dot v1 v2 /
          (Real.sqrt (AIEngine.dot v1 v1) * Real.sqrt (AIEngine.dot v2 v2))) ∧
      ∀ s, AIEngine.get_similarity v1 v2 = .ok s → -1 ≤ s ∧ s ≤ 1) ∧
    (v1.length ≠ v2.length →
      AIEngine.get_similarity v1 v2 = .error "shapes not aligned") := by
  constructor
  · intro h
    constructor
    · simp [AIEngine.get_similarity, if_pos h, AIEngine.cosineSim]
    · intro s hs
      rw [AIEngine.get_similarity, if_pos h] at hs
      injection hs with hs2
      subst hs2
      exact cosineSim_bounds v1 v2 h
  · intro h
    simp [AIEngine.get_similarity, if_neg h]

/-- Witness for claim C8 at concrete vectors: an aligned orthogonal pair
and a mismatched pair. -/
theorem get_similarity_spec_witness :
    (([1, 0] : List ℝ).length = ([0, 1] : List ℝ).length ∧
      (∀ s, AIEngine.get_similarity [1, 0] [0, 1] = .ok s →
        -1 ≤ s ∧ s ≤ 1)) ∧
    (([1] : List ℝ).length ≠ ([0, 1] : List ℝ).length ∧
      AIEngine.get_similarity [1] [0, 1] = .error "shapes not aligned") := by
  constructor
  · exact ⟨rfl, ((get_similarity_spec [1, 0] [0, 1]).1 rfl).2⟩
  · exact ⟨by simp, (get_similarity_spec [1] [0, 1]).2 (by simp)⟩

/-- Claim C9: the extractor adapter is total at its public boundary: a
raised internal failure (unreadable input, capability error) yields the
empty list, observationally identical to a successful extraction finding
no face. -/
theorem extract_faces_total (msg : String) :
    AIEngine.extract_faces (.raise msg) = AIEngine.extract_faces (.ok []) ∧
    AIEngine.extract_faces (.raise msg) = [] :=
  ⟨rfl, rfl⟩

/-- Claim C2: for every probe with at least one detected face and every
dimensionally consistent descriptor store, identify returns exactly the
matches of the descriptors whose cosine similarity with the probe
strictly exceeds the 0.65 threshold, sorted in descending order of
similarity with no out-of-order adjacent pair, truncated to the 20
highest-scoring entries; no descriptor at or below the threshold
contributes a result. -/
theorem identify_threshold_sorted_topk (f : Face) (rest : List Face)
    (descs : List FaceDescriptor)
    (hdim : ∀ d ∈ descs, d.vector.length = f.embedding.length) :
    ∃ full : List MatchResult,
      identify_with_faces (f :: rest) descs = .results (full.take 20) ∧
      full.Perm (matchesOf f.embedding descs) ∧
      full.Pairwise scoreGE ∧
      (full.take 20).Pairwise scoreGE ∧
      ∀ m ∈ full.take 20, 0.65 < m.similarity := by
  have hscan := scanMatches_eq_matchesOf f.embedding descs hdim
  refine ⟨sortByScore (matchesOf f.embedding descs), ?_,
    sortByScore_perm _, sortByScore_sorted _, ?_, ?_⟩
  · simp [identify_with_faces, hscan]
  · exact List.Pairwise.sublist (List.take_sublist _ _) (sortByScore_sorted _)
  · intro m hm
    have hm2 : m ∈ sortByScore (matchesOf f.embedding descs) :=
      (List.take_sublist _ _).subset hm
    have hm3 : m ∈ matchesOf f.embedding descs :=
      (sortByScore_perm _).mem_iff.mp hm2
    exact (mem_matchesOf hm3).1

/-- Witness for claim C2 at a concrete probe and single-descriptor store. -/
theorem identify_threshold_sorted_topk_witness :
    (∀ d ∈ [sampleDescA], d.vector.length = sampleFace.embedding.length) ∧
    (∃ full : List MatchResult,
      identify_with_faces [sampleFace] [sampleDescA] = .results (full.take 20) ∧
      full.Perm (matchesOf sampleFace.embedding [sampleDescA]) ∧
      full.Pairwise scoreGE ∧
      (full.take 20).Pairwise scoreGE ∧
      ∀ m ∈ full.take 20, 0.65 < m.similarity) := by
  have hdim : ∀ d ∈ [sampleDescA],
      d.vector.length = sampleFace.embedding.length := by
    intro d hd
    rw [List.mem_singleton] at hd
    subst hd
    rfl
  exact ⟨hdim, identify_threshold_sorted_topk sampleFace [] [sampleDescA] hdim⟩

/-- Claim C4: with the store in insertion order (strictly ascending
descriptor ids, as the autoincrement key yields) and dimensionally
consistent, the identify result is the uniquely determined output of the
stable descending sort: any two matches with equal similarity appear in
ascending order of the descriptor id that produced them, both in the full
sorted sequence and in the truncated result. -/
theorem identify_ties_ascending_id (f : Face) (rest : List Face)
    (descs : List FaceDescriptor)
    (hdim : ∀ d ∈ descs, d.vector.length = f.embedding.length)
    (hids : descs.Pairwise (fun a b => a.id < b.id)) :
    ∃ tagged,
      scanMatchesTagged f.embedding descs = .ok tagged ∧
      identify_with_faces (f :: rest) descs =
        .results (((sortTagged tagged).map Prod.snd).take 20) ∧
      (sortTagged tagged).Pairwise tieAsc ∧
      ((sortTagged tagged).take 20).Pairwise tieAsc := by
  have hscan := scanMatches_eq_matchesOf f.embedding descs hdim
  refine ⟨taggedMatchesOf f.embedding descs,
    scanMatchesTagged_eq _ _ hdim, ?_, ?_, ?_⟩
  · rw [sortTagged_map_snd, taggedMatchesOf_map_snd]
    simp [identify_with_faces, hscan]
  · exact sortTagged_tieAsc (taggedMatchesOf_pairwise_id _ hids)
  · exact List.Pairwise.sublist (List.take_sublist _ _)
      (sortTagged_tieAsc (taggedMatchesOf_pairwise_id _ hids))

/-- Witness for claim C4 at a concrete probe and a two-descriptor store in
insertion order with equal scores. -/
theorem identify_ties_ascending_id_witness :
    (∀ d ∈ [sampleDescA, sampleDescB],
        d.vector.length = sampleFace.embedding.length) ∧
    List.Pairwise (fun a b => a.id < b.id) [sampleDescA, sampleDescB] ∧
    (∃ tagged,
      scanMatchesTagged sampleFace.embedding [sampleDescA, sampleDescB] =
        .ok tagged ∧
      identify_with_faces [sampleFace] [sampleDescA, sampleDescB] =
        .results (((sortTagged tagged).map Prod.snd).take 20) ∧
      (sortTagged tagged).Pairwise tieAsc ∧
      ((sortTagged tagged).take 20).Pairwise tieAsc) := by
  have hdim : ∀ d ∈ [sampleDescA, sampleDescB],
      d.vector.length = sampleFace.embedding.length := by
    intro d hd
    rcases List.mem_cons.mp hd with rfl | hd2
    · rfl
    · rw [List.mem_singleton] at hd2
      subst hd2
      rfl
  have hids : List.Pairwise (fun a b => a.id < b.id)
      [sampleDescA, sampleDescB] := by
    refine List.pairwise_cons.mpr ⟨?_, List.pairwise_singleton _ _⟩
    intro b hb
    rw [List.mem_singleton] at hb
    subst hb
    exact Nat.one_lt_two
  exact ⟨hdim, hids,
    identify_ties_ascending_id sampleFace [] [sampleDescA, sampleDescB]
      hdim hids⟩

/-- Matches of a store whose descriptors all score at or below the
threshold: none. -/
theorem matchesOf_eq_nil {probe : List ℝ} {descs : List FaceDescriptor}
    (hbelow : ∀ d ∈ descs, AIEngine.cosineSim probe d.vector ≤ 0.65) :
    matchesOf probe descs = [] := by
  induction descs with
  | nil => simp [matchesOf]
  | cons d ds ih =>
      have hd := hbelow d (List.mem_cons_self d ds)
      rw [matchesOf, List.filterMap_cons, if_neg (not_lt.mpr hd)]
      exact ih (fun x hx => hbelow x (List.mem_cons_of_mem d hx))

/-- Claim C5: identify distinguishes its two empty outcomes: an empty
probe extraction yields empty results together with the distinct no-face
message at status 200 (a success, not an error); a detected face with no
stored descriptor above the threshold yields empty results with no
message. -/
theorem identify_two_empty_outcomes (f : Face) (rest : List Face)
    (descs : List FaceDescriptor)
    (hdim : ∀ d ∈ descs, d.vector.length = f.embedding.length)
    (hbelow : ∀ d ∈ descs, AIEngine.cosineSim f.embedding d.vector ≤ 0.65) :
    (identify_with_faces [] descs = .noFace ∧
      statusCode (identify_with_faces [] descs) = 200 ∧
      responseResults (identify_with_faces [] descs) = some [] ∧
      responseMessage (identify_with_faces [] descs) =
        some "No se detectó ningún rostro") ∧
    (identify_with_faces (f :: rest) descs = .results [] ∧
      responseMessage (identify_with_faces (f :: rest) descs) = none ∧
      statusCode (identify_with_faces (f :: rest) descs) = 200) := by
  have hscan := scanMatches_eq_matchesOf f.embedding descs hdim
  have hnil := matchesOf_eq_nil hbelow
  have hres : identify_with_faces (f :: rest) descs = .results [] := by
    simp [identify_with_faces, hscan, hnil, sortByScore]
  exact ⟨⟨rfl, rfl, rfl, rfl⟩, hres, by rw [hres]; rfl, by rw [hres]; rfl⟩

/-- Witness for claim C5 at a concrete probe and a store holding one
orthogonal descriptor. -/
theorem identify_two_empty_outcomes_witness :
    (∀ d ∈ [sampleDescC], d.vector.length = sampleFace.embedding.length) ∧
    (∀ d ∈ [sampleDescC],
      AIEngine.cosineSim sampleFace.embedding d.vector ≤ 0.65) ∧
    ((identify_with_faces [] [sampleDescC] = .noFace ∧
      statusCode (identify_with_faces [] [sampleDescC]) = 200 ∧
      responseResults (identify_with_faces [] [sampleDescC]) = some [] ∧
      responseMessage (identify_with_faces [] [sampleDescC]) =
        some "No se detectó ningún rostro") ∧
    (identify_with_faces [sampleFace] [sampleDescC] = .results [] ∧
      responseMessage (identify_with_faces [sampleFace] [sampleDescC]) = none ∧
      statusCode (identify_with_faces [sampleFace] [sampleDescC]) = 200)) := by
  have hdim : ∀ d ∈ [sampleDescC],
      d.vector.length = sampleFace.embedding.length := by
    intro d hd
    rw [List.mem_singleton] at hd
    subst hd
    rfl
  have hzero : AIEngine.dot sampleFace.embedding sampleDescC.vector = 0 := by
    show AIEngine.dot [(1 : ℝ), 0] [(0 : ℝ), 1] = 0
    simp [AIEngine.dot]
  have hbelow : ∀ d ∈ [sampleDescC],
      AIEngine.cosineSim sampleFace.embedding d.vector ≤ 0.65 := by
    intro d hd
    rw [List.mem_singleton] at hd
    subst hd
    rw [AIEngine.cosineSim, hzero, zero_div]
    norm_num
  exact ⟨hdim, hbelow,
    identify_two_empty_outcomes sampleFace [] [sampleDescC] hdim hbelow⟩

/-- Claim C7 counterexample: extract_faces keeps a face whose bounding box
has zero height, because only the width is tested by the filter, so
degenerate zero-height boxes are returned. -/
theorem extract_faces_zero_height_counterexample :
    AIEngine.extract_faces (.ok [⟨[1], ⟨0, 0, 5, 0⟩⟩]) =
      [⟨[1], ⟨0, 0, 5, 0⟩⟩] ∧
    (FacialArea.mk 0 0 5 0).h = 0 :=
  ⟨rfl, rfl⟩

/-- Claim C7 amended: every face returned by extract_faces has a bounding
box of strictly positive width (zero-width boxes are filtered out); the
height is not checked. -/
theorem extract_faces_width_pos (outcome : RepresentOutcome) (f : Face)
    (hf : f ∈ AIEngine.extract_faces outcome) : 0 < f.box.w := by
  cases outcome with
  | raise msg => simp [AIEngine.extract_faces] at hf
  | ok results =>
      simp only [AIEngine.extract_faces] at hf
      induction results with
      | nil => simp at hf
      | cons r rs ih =>
          rw [List.filterMap_cons] at hf
          by_cases h : r.facial_area.w > 0
          · rw [if_pos h] at hf
            rcases List.mem_cons.mp hf with rfl | h2
            · exact h
            · exact ih h2
          · rw [if_neg h] at hf
            exact ih hf

/-- Witness for the amended claim C7 at a concrete extraction result. -/
theorem extract_faces_width_pos_witness :
    (⟨[1], sampleBox⟩ : Face) ∈
        AIEngine.extract_faces (.ok [⟨[1], sampleBox⟩]) ∧
      0 < (⟨[1], sampleBox⟩ : Face).box.w :=
  ⟨List.mem_singleton.mpr rfl,
    extract_faces_width_pos (.ok [⟨[1], sampleBox⟩]) ⟨[1], sampleBox⟩
      (List.mem_singleton.mpr rfl)⟩

/-- Claim C10: identify results are per-descriptor, not per-photo: each
stored descriptor above the threshold contributes its own match carrying
the photo reference of that descriptor, so the pre-truncation match count
for any photo equals the number of matching descriptors owned by that
photo; results are never deduplicated by photo. -/
theorem identify_per_descriptor (f : Face) (rest : List Face)
    (descs : List FaceDescriptor)
    (hdim : ∀ d ∈ descs, d.vector.length = f.embedding.length) :
    ∃ full : List MatchResult,
      identify_with_faces (f :: rest) descs = .results (full.take 20) ∧
      (∀ pid, full.countP (fun m => m.photo_id == pid) =
        descs.countP (fun d => d.photo.id == pid &&
          decide (AIEngine.cosineSim f.embedding d.vector > 0.65))) ∧
      ∀ m ∈ full, ∃ d ∈ descs,
        m = mkMatch d (AIEngine.cosineSim f.embedding d.vector) ∧
        m.photo_id = d.photo.id ∧ m.path = d.photo.relative_path := by
  have hscan := scanMatches_eq_matchesOf f.embedding descs hdim
  refine ⟨sortByScore (matchesOf f.embedding descs),
    by simp [identify_with_faces, hscan], ?_, ?_⟩
  · intro pid
    rw [List.Perm.countP_eq _ (sortByScore_perm _)]
    exact countP_matchesOf f.embedding descs pid
  · intro m hm
    have hm2 : m ∈ matchesOf f.embedding descs :=
      (sortByScore_perm _).mem_iff.mp hm
    rcases (mem_matchesOf hm2).2 with ⟨d, hd, hmk⟩
    exact ⟨d, hd, hmk, by rw [hmk]; rfl, by rw [hmk]; rfl⟩

/-- Witness for claim C10 at a concrete probe and a store holding two
matching descriptors of the same photo. -/
theorem identify_per_descriptor_witness :
    (∀ d ∈ [sampleDescA, sampleDescB],
        d.vector.length = sampleFace.embedding.length) ∧
    (∃ full : List MatchResult,
      identify_with_faces [sampleFace] [sampleDescA, sampleDescB] =
        .results (full.take 20) ∧
      (∀ pid, full.countP (fun m => m.photo_id == pid) =
        [sampleDescA, sampleDescB].countP (fun d => d.photo.id == pid &&
          decide (AIEngine.cosineSim sampleFace.embedding d.vector > 0.65))) ∧
      ∀ m ∈ full, ∃ d ∈ [sampleDescA, sampleDescB],
        m = mkMatch d (AIEngine.cosineSim sampleFace.embedding d.vector) ∧
        m.photo_id = d.photo.id ∧ m.path = d.photo.relative_path) := by
  have hdim : ∀ d ∈ [sampleDescA, sampleDescB],
      d.vector.length = sampleFace.embedding.length := by
    intro d hd
    rcases List.mem_cons.mp hd with rfl | hd2
    · rfl
    · rw [List.mem_singleton] at hd2
      subst hd2
      rfl
  exact ⟨hdim,
    identify_per_descriptor sampleFace [] [sampleDescA, sampleDescB] hdim⟩
